import Mathlib

/-!
Verification of the generation-orchestrator subsystem of the img-studio
repository.

The definitions below are a shallow embedding of the TypeScript source:

* polling constants, backoff policy and the video polling loop of
  src/app/(studio)/generate/page.tsx (constants lines 46-50, stopPolling
  lines 153-159, the polling effect lines 162-224, saveVideoToHistory
  lines 268-359, saveImageToHistory lines 362-452,
  handleVideoPollingStart lines 463-473);
* the error rewriting of src/app/ui/generate-components/GenerateForm.tsx
  (manageModelNotFoundError lines 578-593, onVideoSubmit error rewrite
  lines 709-713);
* the metadata store of src/app/api/generation-metadata.tsx
  (loadGenerationHistory lines 124-182, deleteGenerationSession
  lines 217-232).

The browser event loop (timers and promise resolutions) is modelled as a
small-step machine: external schedule choices (which timer fires, which
in-flight status call resolves and with what result) are a list of
actions folded over a deterministic step function.  JavaScript numbers
are modelled as exact rationals and Math.round as the mathematical
round-half-up; machine-integer overflow is irrelevant at the magnitudes
involved.
-/

/-! ### Polling constants, generate/page.tsx lines 46-50 -/

def INITIAL_POLLING_INTERVAL_MS : ℚ := 6000

def MAX_POLLING_INTERVAL_MS : ℚ := 60000

def BACKOFF_FACTOR : ℚ := 6/5

def MAX_POLLING_ATTEMPTS : Nat := 30

def JITTER_FACTOR : ℚ := 1/5

/-! ### Backoff policy, generate/page.tsx lines 203-205

Source:
  const jitter = pollingIntervalRef.current * JITTER_FACTOR * (Math.random() - 0.5)
  const nextInterval = Math.round(pollingIntervalRef.current + jitter)
  pollingIntervalRef.current = Math.min(pollingIntervalRef.current * BACKOFF_FACTOR, MAX_POLLING_INTERVAL_MS)

The random draw r stands for the Math.random() result.  Math.round(x)
is floor(x + 1/2) for the values involved, which is Mathlib round. -/

def nextPollDelay (i r : ℚ) : ℤ := round (i + i * JITTER_FACTOR * (r - 1/2))

def nextPollInterval (i : ℚ) : ℚ := min (i * BACKOFF_FACTOR) MAX_POLLING_INTERVAL_MS

/-- Value of pollingIntervalRef.current after n backoff steps, starting
from INITIAL_POLLING_INTERVAL_MS (handleVideoPollingStart line 471). -/
def intervalSeq : Nat → ℚ
  | 0 => INITIAL_POLLING_INTERVAL_MS
  | n + 1 => nextPollInterval (intervalSeq n)

/-! ### Events observable from one poll closure

Each event is tagged with the operation name the producing poll closure
captured (the pollingOperation of the effect run that created it). -/

inductive Ev where
  | call (op : String)
  | errMsg (op : String) (msg : String)
  | storeVideos (op : String) (videos : List String)
  | saveHistory (op : String)
deriving DecidableEq

/-- Shape of a getVideoGenerationStatus result: done:false, or done:true
with an error string, or done:true with a (possibly empty) video list.
The code checks statusResult.error before statusResult.videos. -/
inductive VideoStatus where
  | notDone
  | doneError (msg : String)
  | doneVideos (videos : List String)
deriving DecidableEq

/-- Result of awaiting one status call: a value, or a thrown exception
(caught by the catch branch at lines 208-213). -/
inductive PollOutcome where
  | ok (r : VideoStatus)
  | threw (msg : String)
deriving DecidableEq

/-- External schedule actions: user starts a generation
(handleVideoPollingStart plus the effect run it triggers), user/UI stops
polling (stopPolling), a scheduled timer fires, an in-flight status call
resolves. -/
inductive Act where
  | start (op : String)
  | stop
  | fire (t : Nat)
  | resolve (c : Nat) (o : PollOutcome)
deriving DecidableEq

/-- Machine state for the polling component of generate/page.tsx.

* op models the pollingOperation React state (name only; the metadata
  snapshot rides along with the name).
* ref models pollingTimeoutRef.current: the id of the last scheduled
  timer, or none.  It is NOT cleared when a timer fires, exactly as in
  the source, so it can be stale.
* attempts models pollingAttemptsRef.current.
* steps counts backoff steps: pollingIntervalRef.current equals
  intervalSeq steps (the rational itself is kept out of the state so the
  machine is kernel-computable; it influences only timing, never
  control flow).
* timers is the set of scheduled-but-not-fired timers with the operation
  their poll closure captured; inflight likewise for awaited status
  calls.  nextT / nextC are fresh-id counters.
* log records the observable calls and reconciliation effects. -/
structure MState where
  op : Option String
  ref : Option Nat
  attempts : Nat
  steps : Nat
  timers : List (Nat × String)
  inflight : List (Nat × String)
  nextT : Nat
  nextC : Nat
  log : List Ev
deriving DecidableEq

/-- Lines 154-157: if (pollingTimeoutRef.current) \x7b clearTimeout(...);
pollingTimeoutRef.current = null \x7d. -/
def clearPollingTimeout (s : MState) : MState :=
  match s.ref with
  | none => s
  | some t => { s with timers := s.timers.filter (fun e => e.1 != t), ref := none }

/-- Lines 153-159: stopPolling clears the pending timeout and sets
pollingOperation to null (the effect re-run for a null operation returns
immediately). -/
def stopPolling (s : MState) : MState :=
  { clearPollingTimeout s with op := none }

def timeoutMsg : String :=
  "Video generation timed out after " ++ toString MAX_POLLING_ATTEMPTS ++ " attempts."

def noResultsMsg : String :=
  "Video generation finished, but no results were returned."

def statusErrorMsg (m : String) : String := "Error checking video status: " ++ m

/-- Lines 165-181: the synchronous head of the poll closure.  If the
attempt ceiling is reached it surfaces the timeout message and stops;
otherwise it increments the attempt counter and issues the status call
(which becomes an in-flight promise). -/
def pollBody (s : MState) (op : String) : MState :=
  if MAX_POLLING_ATTEMPTS ≤ s.attempts then
    stopPolling { s with log := s.log ++ [Ev.errMsg op timeoutMsg] }
  else
    { s with
        attempts := s.attempts + 1,
        log := s.log ++ [Ev.call op],
        inflight := s.inflight ++ [(s.nextC, op)],
        nextC := s.nextC + 1 }

/-- Lines 183-213: the continuation after the awaited status call.  A
thrown call goes to the catch branch (no guard there); a normal result
is dropped if pollingTimeoutRef.current is null (line 184), otherwise
the done/error/videos/not-done cases run. -/
def resolveBody (s : MState) (op : String) (o : PollOutcome) : MState :=
  match o with
  | PollOutcome.threw m =>
      stopPolling { s with log := s.log ++ [Ev.errMsg op (statusErrorMsg m)] }
  | PollOutcome.ok r =>
      match s.ref with
      | none => s
      | some _ =>
          match r with
          | VideoStatus.doneError m =>
              stopPolling { s with log := s.log ++ [Ev.errMsg op m] }
          | VideoStatus.doneVideos [] =>
              stopPolling { s with log := s.log ++ [Ev.errMsg op noResultsMsg] }
          | VideoStatus.doneVideos vs =>
              stopPolling { s with log := s.log ++ [Ev.storeVideos op vs, Ev.saveHistory op] }
          | VideoStatus.notDone =>
              { s with
                  steps := s.steps + 1,
                  ref := some s.nextT,
                  timers := s.timers ++ [(s.nextT, op)],
                  nextT := s.nextT + 1 }

/-- One scheduler step.

* start: handleVideoPollingStart (lines 463-473) clears any pending
  timer, resets the attempt and interval refs and sets pollingOperation;
  the effect re-run (line 216) then schedules the first poll and stores
  its timer id in the ref.
* stop: stopPolling.
* fire t: timer t (if still scheduled) fires once and runs the poll
  closure of the operation it captured; the ref is not touched.
* resolve c o: in-flight call c (if any) resolves with outcome o and
  runs the poll continuation of the operation it captured. -/
def step (s : MState) : Act → MState
  | Act.start op =>
      let s1 := clearPollingTimeout s
      let s2 := { s1 with attempts := 0, steps := 0, op := some op }
      { s2 with
          ref := some s2.nextT,
          timers := s2.timers ++ [(s2.nextT, op)],
          nextT := s2.nextT + 1 }
  | Act.stop => stopPolling s
  | Act.fire t =>
      match s.timers.find? (fun e => e.1 == t) with
      | none => s
      | some e => pollBody { s with timers := s.timers.filter (fun x => x.1 != t) } e.2
  | Act.resolve c o =>
      match s.inflight.find? (fun e => e.1 == c) with
      | none => s
      | some e => resolveBody { s with inflight := s.inflight.filter (fun x => x.1 != c) } e.2 o

def initState : MState := ⟨none, none, 0, 0, [], [], 0, 0, []⟩

def runFrom (s : MState) (acts : List Act) : MState := acts.foldl step s

def runTrace (acts : List Act) : MState := runFrom initState acts

/-! ### Canonical schedules for a single started operation -/

/-- Schedule k consecutive complete poll rounds (timer fires, status call
resolves not-done), with timer/call ids starting at j. -/
def roundsB : Nat → Nat → List Act
  | _, 0 => []
  | j, k + 1 =>
      Act.fire j :: Act.resolve j (PollOutcome.ok VideoStatus.notDone) :: roundsB (j + 1) k

/-- Scenario-B schedule: start, then n not-done rounds. -/
def traceB (n : Nat) : List Act := Act.start "A" :: roundsB 0 n

/-- State reached after start plus j not-done rounds (j at most 30). -/
def stateAfter (j : Nat) : MState :=
  { op := some "A",
    ref := some j,
    attempts := j,
    steps := j,
    timers := [(j, "A")],
    inflight := [],
    nextT := j + 1,
    nextC := j,
    log := List.replicate j (Ev.call "A") }

/-- Start, pre not-done rounds, then one more poll whose status call
resolves with the given outcome. -/
def terminalTrace (pre : Nat) (o : PollOutcome) : List Act :=
  Act.start "A" :: (roundsB 0 pre ++ [Act.fire pre, Act.resolve pre o])

/-- Start, pre not-done rounds, one more poll, then stopPolling while
that poll is in flight, and only then its resolution. -/
def cancelTrace (pre : Nat) (o : PollOutcome) : List Act :=
  Act.start "A" :: (roundsB 0 pre ++ [Act.fire pre, Act.stop, Act.resolve pre o])

/-- Quiescent polling state: no pending timer and a null timeout ref. -/
def Quiet (s : MState) : Prop := s.ref = none ∧ s.timers = []

def isStartAct : Act → Bool
  | Act.start _ => true
  | _ => false

def isThrowResolve : Act → Bool
  | Act.resolve _ (PollOutcome.threw _) => true
  | _ => false

def isCallEv : Ev → Bool
  | Ev.call _ => true
  | _ => false

def isSaveEv : Ev → Bool
  | Ev.saveHistory _ => true
  | _ => false

def countCalls (l : List Ev) : Nat := l.countP isCallEv

def countSaves (l : List Ev) : Nat := l.countP isSaveEv

/-! ### History recorder performance block, generate/page.tsx lines 301-309

Source:
  performance: \x7b
    tokensUsed: video.metadata?.tokensUsed,
    inputTokens: video.metadata?.inputTokens,
    outputTokens: video.metadata?.outputTokens,
    totalTokens: video.metadata?.totalTokens,
    executionTimeMs: video.metadata?.executionTimeMs || 0,
    startTime: metadata.startTime,
    endTime: video.metadata?.endTime || new Date().toISOString(),
  \x7d

An Option-valued field is none exactly when the JavaScript value is
undefined, i.e. when the backend did not report it; JSON serialization
then omits the key. -/

structure VideoMetadataI where
  tokensUsed : Option Int
  inputTokens : Option Int
  outputTokens : Option Int
  totalTokens : Option Int
  executionTimeMs : Option Int
  endTime : Option String
deriving DecidableEq

structure PerformanceRecord where
  tokensUsed : Option Int
  inputTokens : Option Int
  outputTokens : Option Int
  totalTokens : Option Int
  executionTimeMs : Option Int
  startTime : String
  endTime : String
deriving DecidableEq

/-- JavaScript x || 0 on an optional number (0 and undefined are falsy
and give 0; every other number is itself). -/
def jsNumOrZero (o : Option Int) : Int := o.getD 0

/-- JavaScript x || d on an optional string (undefined and the empty
string are falsy). -/
def jsStrOr (o : Option String) (d : String) : String :=
  match o with
  | none => d
  | some s => if s == "" then d else s

def mkVideoPerformance (meta : Option VideoMetadataI) (startTime nowIso : String) :
    PerformanceRecord :=
  { tokensUsed := meta.bind (fun m => m.tokensUsed),
    inputTokens := meta.bind (fun m => m.inputTokens),
    outputTokens := meta.bind (fun m => m.outputTokens),
    totalTokens := meta.bind (fun m => m.totalTokens),
    executionTimeMs := some (jsNumOrZero (meta.bind (fun m => m.executionTimeMs))),
    startTime := startTime,
    endTime := jsStrOr (meta.bind (fun m => m.endTime)) nowIso }

/-! ### Parameters map of the Generation Metadata Record -/

/-- JavaScript values as they matter for JSON serialization of the
parameters map. -/
inductive JsValue where
  | str (s : String)
  | num (q : ℚ)
  | jsBool (b : Bool)
  | null
  | undef
deriving DecidableEq

/-- Snapshot of the video form fields echoed into the parameters map
(generate/page.tsx lines 283-292). -/
structure VideoFormSnapshot where
  aspectRatio : String
  resolution : String
  durationSeconds : String
  sampleCount : String
  isVideoWithAudio : Bool
  style : String
  secondary_style : String
deriving DecidableEq

/-- Lines 283-292: the parameters object literal of saveVideoToHistory.
No filtering of any kind is applied at construction. -/
def mkVideoParameters (prompt : String) (fd : VideoFormSnapshot) : List (String × JsValue) :=
  [("userQuery", JsValue.str prompt),
   ("aspectRatio", JsValue.str fd.aspectRatio),
   ("resolution", JsValue.str fd.resolution),
   ("duration", JsValue.str (fd.durationSeconds ++ "s")),
   ("sampleCount", JsValue.str fd.sampleCount),
   ("isVideoWithAudio", JsValue.jsBool fd.isVideoWithAudio),
   ("style", JsValue.str fd.style),
   ("secondary_style", JsValue.str fd.secondary_style)]

/-- Lines 377-381: the parameters object literal of saveImageToHistory
(sampleCount is images.length, a number). -/
def mkImageParameters (prompt ratio : String) (sampleCount : Nat) : List (String × JsValue) :=
  [("userQuery", JsValue.str prompt),
   ("aspectRatio", JsValue.str ratio),
   ("sampleCount", JsValue.num sampleCount)]

/-- Key/value pairs surviving JSON.stringify (generation-metadata.tsx
line 82): JSON serialization drops keys whose value is undefined and
keeps every other value, including empty strings, nulls, zeros and
false. -/
def jsonSerializableParams : List (String × JsValue) → List (String × JsValue)
  | [] => []
  | (k, v) :: rest =>
      match v with
      | JsValue.undef => jsonSerializableParams rest
      | w => (k, w) :: jsonSerializableParams rest

/-! ### Error rewriting, GenerateForm.tsx lines 578-593 and 709-713 -/

structure ModelOption where
  value : String
  label : String
deriving DecidableEq

def backquoteChar : Char := Char.ofNat 96

def apos : String := String.singleton (Char.ofNat 39)

/-- Literal pieces of the model-not-found regular expression
  Publisher Model (backquote)projects\/[^/]+\/locations\/[^/]+\/publishers\/google\/models\/([^(backquote)]+)(backquote) not found\.   -/
def mnfHead : List Char := "Publisher Model ".toList ++ [backquoteChar] ++ "projects/".toList

def mnfLoc : List Char := "/locations/".toList

def mnfPub : List Char := "/publishers/google/models/".toList

def mnfTail : List Char := [backquoteChar] ++ " not found.".toList

/-- Parse the part of the pattern after mnfHead: a nonempty slash-free
segment, the literal /locations/, a nonempty slash-free segment, the
literal /publishers/google/models/, then the captured nonempty
backquote-free group followed by the closing literal.  Greedy [^/]+ and
[^x60]+ classes match exactly up to the next delimiter, so this direct
parse is the regex semantics. -/
def parseModelTail (s : List Char) : Option (List Char) :=
  let p := s.takeWhile (fun c => c != '/')
  let r1 := s.dropWhile (fun c => c != '/')
  if p.isEmpty then none
  else if mnfLoc.isPrefixOf r1 then
    let r2 := r1.drop mnfLoc.length
    let l := r2.takeWhile (fun c => c != '/')
    let r3 := r2.dropWhile (fun c => c != '/')
    if l.isEmpty then none
    else if mnfPub.isPrefixOf r3 then
      let r4 := r3.drop mnfPub.length
      let m := r4.takeWhile (fun c => c != backquoteChar)
      let r5 := r4.dropWhile (fun c => c != backquoteChar)
      if m.isEmpty then none
      else if mnfTail.isPrefixOf r5 then some m else none
    else none
  else none

/-- Unanchored leftmost search of String.prototype.match: try each start
position left to right and return the first capture group of the first
position where the whole pattern matches. -/
def findModelMatch : List Char → Option (List Char)
  | [] => none
  | c :: rest =>
      match (if mnfHead.isPrefixOf (c :: rest)
             then parseModelTail ((c :: rest).drop mnfHead.length)
             else none) with
      | some m => some m
      | none => findModelMatch rest

/-- The user-facing access-request message built at GenerateForm.tsx
line 588 (apostrophes written via apos). -/
def accessRequestMsg (modelLabel : String) : String :=
  "You don" ++ apos ++ "t have access to the model " ++ apos ++ modelLabel ++ apos ++
    ", please select another one in the top dropdown menu for now, and reach out to your IT Admin to request access to " ++
    apos ++ modelLabel ++ apos ++ "."

/-- GenerateForm.tsx lines 578-593: manageModelNotFoundError. -/
def manageModelNotFoundError (errorMessage : String) (modelOptions : List ModelOption) : String :=
  match findModelMatch errorMessage.toList with
  | none => errorMessage
  | some mcs =>
      let modelValue := String.mk mcs
      let modelLabel :=
        match modelOptions.find? (fun mo => mo.value == modelValue) with
        | some mo => mo.label
        | none => modelValue
      accessRequestMsg modelLabel

/-- JavaScript String.prototype.replace with a string pattern: replace
only the first occurrence (or return the string unchanged). -/
def jsReplaceFirst (pat rep : List Char) : List Char → List Char
  | [] => if pat.isEmpty then rep else []
  | c :: rest =>
      if pat.isPrefixOf (c :: rest) then rep ++ (c :: rest).drop pat.length
      else c :: jsReplaceFirst pat rep rest

/-- GenerateForm.tsx lines 710-711: the surfaced message of the video
submission path: result.error.replace(quoted Error-colon-space, empty)
followed by manageModelNotFoundError. -/
def videoErrorRewrite (err : String) (opts : List ModelOption) : String :=
  manageModelNotFoundError
    (String.mk (jsReplaceFirst "Error: ".toList [] err.toList)) opts

/-- Substring test (used only to state properties about messages). -/
def hasSubstr (needle : List Char) : List Char → Bool
  | [] => needle.isEmpty
  | c :: rest => needle.isPrefixOf (c :: rest) || hasSubstr needle rest

/-! ### Metadata store, generation-metadata.tsx -/

structure HistRecord where
  recId : String
  timestampMs : Int
deriving DecidableEq

/-- One entry of the history directory: the fs.stat result for the
session folder (none when stat throws, line 146) and the parsed
metadata.json (none when reading or parsing fails, line 164). -/
structure SessionEntry where
  sessionId : String
  statMtimeMs : Option Int
  metaRecord : Option HistRecord
deriving DecidableEq

/-- The history directory as the filesystem presents it: absent
(fs.access throws, line 131), unreadable (readdir throws, caught by the
outer catch at line 175), or a list of session folders. -/
inductive HistoryDir where
  | missing
  | unreadable (err : String)
  | present (sessions : List SessionEntry)

structure LoadHistoryResult where
  success : Bool
  data : Option (List HistRecord)
  error : Option String
deriving DecidableEq

/-- Lines 139-149: sessionStats collects the sessions whose stat call
succeeded, with their mtime. -/
def sessionStats (sessions : List SessionEntry) : List (SessionEntry × Int) :=
  sessions.filterMap (fun s => s.statMtimeMs.map (fun m => (s, m)))

/-- Comparator of line 152: (a, b) => b.mtime - a.mtime, newest first. -/
def byMtimeDesc (a b : SessionEntry × Int) : Prop := b.2 ≤ a.2

instance : DecidableRel byMtimeDesc :=
  fun a b => inferInstanceAs (Decidable (b.2 ≤ a.2))

instance : IsTotal (SessionEntry × Int) byMtimeDesc :=
  ⟨fun a b => le_total b.2 a.2⟩

instance : IsTrans (SessionEntry × Int) byMtimeDesc :=
  ⟨fun _ _ _ h1 h2 => le_trans h2 h1⟩

/-- Line 152: the stable Array.prototype.sort, modelled by insertion
sort (stable, and agreeing with any stable sort for this total
preorder). -/
def sortedStats (sessions : List SessionEntry) : List (SessionEntry × Int) :=
  List.insertionSort byMtimeDesc (sessionStats sessions)

/-- Line 153: slice(0, 30). -/
def recentSessions (sessions : List SessionEntry) : List (SessionEntry × Int) :=
  (sortedStats sessions).take 30

/-- Comparator of line 170: newest record timestamp first. -/
def byTimestampDesc (a b : HistRecord) : Prop := b.timestampMs ≤ a.timestampMs

instance : DecidableRel byTimestampDesc :=
  fun a b => inferInstanceAs (Decidable (b.timestampMs ≤ a.timestampMs))

instance : IsTotal HistRecord byTimestampDesc :=
  ⟨fun a b => le_total b.timestampMs a.timestampMs⟩

instance : IsTrans HistRecord byTimestampDesc :=
  ⟨fun _ _ _ h1 h2 => le_trans h2 h1⟩

/-- Lines 124-182: loadGenerationHistory. -/
def loadGenerationHistory : HistoryDir → LoadHistoryResult
  | HistoryDir.missing => ⟨true, some [], none⟩
  | HistoryDir.unreadable e => ⟨false, none, some e⟩
  | HistoryDir.present sessions =>
      let metadataList := (recentSessions sessions).filterMap (fun p => p.1.metaRecord)
      ⟨true, some (List.insertionSort byTimestampDesc metadataList), none⟩

def loadedRecords (d : HistoryDir) : List HistRecord :=
  ((loadGenerationHistory d).data).getD []

structure DeleteResult where
  success : Bool
  error : Option String
deriving DecidableEq

/-- Lines 217-232: deleteGenerationSession.  The filesystem is the list
of existing session ids; rmFailure injects an environment failure of
fs.rm (permissions etc.), which the catch turns into a structured
result.  With force:true a missing path is NOT a failure, so the
success branch applies whether or not the session exists. -/
def deleteGenerationSession (sessions : List String) (sessionId : String)
    (rmFailure : Option String) : List String × DeleteResult :=
  match rmFailure with
  | some e => (sessions, ⟨false, some e⟩)
  | none => (sessions.filter (fun s => s != sessionId), ⟨true, none⟩)

/-! ### Helper lemmas about the polling machine -/

theorem runFrom_append (s : MState) (l1 l2 : List Act) :
    runFrom s (l1 ++ l2) = runFrom (runFrom s l1) l2 :=
  List.foldl_append step s l1 l2

theorem roundsB_add (a : Nat) : ∀ (j b : Nat), roundsB j (a + b) = roundsB j a ++ roundsB (j + a) b := by
  induction a with
  | zero => intro j b; simp [roundsB]
  | succ a ih =>
      intro j b
      have h1 : a + 1 + b = (a + b) + 1 := by omega
      rw [h1]
      simp only [roundsB]
      rw [ih (j + 1) b]
      rw [show j + 1 + a = j + (a + 1) from by omega]
      simp [List.cons_append]

theorem round_step (j : Nat) (h : j < 30) :
    runFrom (stateAfter j) [Act.fire j, Act.resolve j (PollOutcome.ok VideoStatus.notDone)]
      = stateAfter (j + 1) := by
  have hn : ¬ (MAX_POLLING_ATTEMPTS ≤ j) := by simp [MAX_POLLING_ATTEMPTS]; omega
  simp [runFrom, stateAfter, step, pollBody, resolveBody, clearPollingTimeout, hn,
    List.find?, List.filter, List.replicate_succ']

theorem runB (j : Nat) (h : j ≤ 30) : runTrace (traceB j) = stateAfter j := by
  induction j with
  | zero => rfl
  | succ j ih =>
      have hj : j ≤ 30 := Nat.le_of_succ_le h
      have hlt : j < 30 := h
      have hsplit : roundsB 0 (j + 1) = roundsB 0 j ++ roundsB j 1 := by
        have := roundsB_add j 0 1
        simpa using this
      have : traceB (j + 1) = traceB j ++ roundsB j 1 := by
        simp [traceB, hsplit]
      rw [this, runTrace, runFrom_append, ← runTrace, ih hj]
      show runFrom (stateAfter j) (roundsB j 1) = stateAfter (j + 1)
      have : roundsB j 1 = [Act.fire j, Act.resolve j (PollOutcome.ok VideoStatus.notDone)] := rfl
      rw [this]
      exact round_step j hlt

theorem quiet_step (s : MState) (a : Act) (hq : Quiet s) (hns : isStartAct a = false) :
    Quiet (step s a)
      ∧ countCalls (step s a).log = countCalls s.log
      ∧ countSaves (step s a).log = countSaves s.log
      ∧ (isThrowResolve a = false → (step s a).log = s.log) := by
  obtain ⟨href, htimers⟩ := hq
  cases a with
  | start op => simp [isStartAct] at hns
  | stop =>
      have hstep : step s Act.stop = { s with op := none } := by
        simp [step, stopPolling, clearPollingTimeout, href]
      rw [hstep]
      exact ⟨⟨href, htimers⟩, rfl, rfl, fun _ => rfl⟩
  | fire t =>
      have hstep : step s (Act.fire t) = s := by
        simp [step, htimers]
      rw [hstep]
      exact ⟨⟨href, htimers⟩, rfl, rfl, fun _ => rfl⟩
  | resolve c o =>
      cases hfind : s.inflight.find? (fun e => e.1 == c) with
      | none =>
          have hstep : step s (Act.resolve c o) = s := by
            simp [step, hfind]
          rw [hstep]
          exact ⟨⟨href, htimers⟩, rfl, rfl, fun _ => rfl⟩
      | some e =>
          cases o with
          | ok r =>
              have hstep : step s (Act.resolve c (PollOutcome.ok r))
                  = { s with inflight := s.inflight.filter (fun x => x.1 != c) } := by
                simp [step, hfind, resolveBody, href]
              rw [hstep]
              exact ⟨⟨href, htimers⟩, rfl, rfl, fun _ => rfl⟩
          | threw m =>
              have hstep : step s (Act.resolve c (PollOutcome.threw m))
                  = { s with inflight := s.inflight.filter (fun x => x.1 != c),
                             log := s.log ++ [Ev.errMsg e.2 (statusErrorMsg m)],
                             op := none } := by
                simp [step, hfind, resolveBody, stopPolling, clearPollingTimeout, href]
              rw [hstep]
              refine ⟨⟨href, htimers⟩, ?_, ?_, ?_⟩
              · simp [countCalls, List.countP_append, List.countP_cons, isCallEv]
              · simp [countSaves, List.countP_append, List.countP_cons, isSaveEv]
              · intro hcontra
                simp [isThrowResolve] at hcontra

theorem quiet_run (acts : List Act) : ∀ (s : MState), Quiet s → (∀ a ∈ acts, isStartAct a = false) →
    Quiet (runFrom s acts)
      ∧ countCalls (runFrom s acts).log = countCalls s.log
      ∧ countSaves (runFrom s acts).log = countSaves s.log
      ∧ ((∀ a ∈ acts, isThrowResolve a = false) → (runFrom s acts).log = s.log) := by
  induction acts with
  | nil => intro s hq _; exact ⟨hq, rfl, rfl, fun _ => rfl⟩
  | cons a acts ih =>
      intro s hq hns
      have ha := quiet_step s a hq (hns a (by simp))
      have hrest := ih (step s a) ha.1 (fun x hx => hns x (by simp [hx]))
      refine ⟨hrest.1, ?_, ?_, ?_⟩
      · rw [show runFrom s (a :: acts) = runFrom (step s a) acts from rfl, hrest.2.1, ha.2.1]
      · rw [show runFrom s (a :: acts) = runFrom (step s a) acts from rfl, hrest.2.2.1, ha.2.2.1]
      · intro hnt
        rw [show runFrom s (a :: acts) = runFrom (step s a) acts from rfl,
          hrest.2.2.2 (fun x hx => hnt x (by simp [hx])), ha.2.2.2 (hnt a (by simp))]

theorem roundsB_no_start (k : Nat) : ∀ (j : Nat) (a : Act), a ∈ roundsB j k →
    isStartAct a = false ∧ isThrowResolve a = false := by
  induction k with
  | zero => intro j a ha; simp [roundsB] at ha
  | succ k ih =>
      intro j a ha
      simp only [roundsB, List.mem_cons] at ha
      rcases ha with h | h | h
      · subst h; exact ⟨rfl, rfl⟩
      · subst h; exact ⟨rfl, rfl⟩
      · exact ih (j + 1) a h

theorem countCalls_replicate (n : Nat) (op : String) :
    countCalls (List.replicate n (Ev.call op)) = n := by
  induction n with
  | zero => rfl
  | succ n ih =>
      rw [List.replicate_succ]
      simp only [countCalls, List.countP_cons, isCallEv] at ih ⊢
      simp [ih]

theorem countSaves_replicate (n : Nat) (op : String) :
    countSaves (List.replicate n (Ev.call op)) = 0 := by
  induction n with
  | zero => rfl
  | succ n ih =>
      rw [List.replicate_succ]
      simp only [countSaves, List.countP_cons, isSaveEv] at ih ⊢
      simp [ih]

-- state after [fire pre] from stateAfter pre, pre < 30

theorem fire_from_stateAfter (pre : Nat) (h : pre < 30) :
    step (stateAfter pre) (Act.fire pre)
      = { op := some "A", ref := some pre, attempts := pre + 1, steps := pre,
          timers := [], inflight := [(pre, "A")], nextT := pre + 1, nextC := pre + 1,
          log := List.replicate pre (Ev.call "A") ++ [Ev.call "A"] } := by
  have hn : ¬ (MAX_POLLING_ATTEMPTS ≤ pre) := by simp [MAX_POLLING_ATTEMPTS]; omega
  simp [step, stateAfter, pollBody, hn, List.find?, List.filter]

theorem run_terminal (pre : Nat) (h : pre < 30) (o : PollOutcome) :
    runTrace (terminalTrace pre o)
      = step ({ op := some "A", ref := some pre, attempts := pre + 1, steps := pre,
                timers := [], inflight := [(pre, "A")], nextT := pre + 1, nextC := pre + 1,
                log := List.replicate pre (Ev.call "A") ++ [Ev.call "A"] } : MState)
          (Act.resolve pre o) := by
  have hsplit : terminalTrace pre o = traceB pre ++ [Act.fire pre, Act.resolve pre o] := by
    simp [terminalTrace, traceB]
  rw [hsplit, runTrace, runFrom_append, ← runTrace, runB pre (le_of_lt h)]
  show step (step (stateAfter pre) (Act.fire pre)) (Act.resolve pre o) = _
  rw [fire_from_stateAfter pre h]

theorem run_terminal_videos (pre : Nat) (h : pre < 30) (v : String) (vt : List String) :
    runTrace (terminalTrace pre (PollOutcome.ok (VideoStatus.doneVideos (v :: vt))))
      = { op := none, ref := none, attempts := pre + 1, steps := pre,
          timers := [], inflight := [], nextT := pre + 1, nextC := pre + 1,
          log := (List.replicate pre (Ev.call "A") ++ [Ev.call "A"])
                   ++ [Ev.storeVideos "A" (v :: vt), Ev.saveHistory "A"] } := by
  rw [run_terminal pre h]
  simp [step, resolveBody, stopPolling, clearPollingTimeout, List.find?, List.filter]

theorem run_terminal_doneError (pre : Nat) (h : pre < 30) (m : String) :
    runTrace (terminalTrace pre (PollOutcome.ok (VideoStatus.doneError m)))
      = { op := none, ref := none, attempts := pre + 1, steps := pre,
          timers := [], inflight := [], nextT := pre + 1, nextC := pre + 1,
          log := (List.replicate pre (Ev.call "A") ++ [Ev.call "A"]) ++ [Ev.errMsg "A" m] } := by
  rw [run_terminal pre h]
  simp [step, resolveBody, stopPolling, clearPollingTimeout, List.find?, List.filter]

theorem run_terminal_doneEmpty (pre : Nat) (h : pre < 30) :
    runTrace (terminalTrace pre (PollOutcome.ok (VideoStatus.doneVideos [])))
      = { op := none, ref := none, attempts := pre + 1, steps := pre,
          timers := [], inflight := [], nextT := pre + 1, nextC := pre + 1,
          log := (List.replicate pre (Ev.call "A") ++ [Ev.call "A"]) ++ [Ev.errMsg "A" noResultsMsg] } := by
  rw [run_terminal pre h]
  simp [step, resolveBody, stopPolling, clearPollingTimeout, List.find?, List.filter]

theorem run_terminal_threw (pre : Nat) (h : pre < 30) (m : String) :
    runTrace (terminalTrace pre (PollOutcome.threw m))
      = { op := none, ref := none, attempts := pre + 1, steps := pre,
          timers := [], inflight := [], nextT := pre + 1, nextC := pre + 1,
          log := (List.replicate pre (Ev.call "A") ++ [Ev.call "A"])
                   ++ [Ev.errMsg "A" (statusErrorMsg m)] } := by
  rw [run_terminal pre h]
  simp [step, resolveBody, stopPolling, clearPollingTimeout, List.find?, List.filter]

theorem run_cancel (pre : Nat) (h : pre < 30) (r : VideoStatus) :
    runTrace (cancelTrace pre (PollOutcome.ok r))
      = { op := none, ref := none, attempts := pre + 1, steps := pre,
          timers := [], inflight := [], nextT := pre + 1, nextC := pre + 1,
          log := List.replicate pre (Ev.call "A") ++ [Ev.call "A"] } := by
  have hsplit : cancelTrace pre (PollOutcome.ok r)
      = traceB pre ++ [Act.fire pre, Act.stop, Act.resolve pre (PollOutcome.ok r)] := by
    simp [cancelTrace, traceB]
  rw [hsplit, runTrace, runFrom_append, ← runTrace, runB pre (le_of_lt h)]
  show step (step (step (stateAfter pre) (Act.fire pre)) Act.stop) (Act.resolve pre (PollOutcome.ok r)) = _
  rw [fire_from_stateAfter pre h]
  simp [step, stopPolling, clearPollingTimeout, resolveBody, List.find?, List.filter]

theorem run_timeout31 :
    runTrace (traceB 31)
      = { op := none, ref := none, attempts := 30, steps := 30,
          timers := [], inflight := [], nextT := 31, nextC := 30,
          log := List.replicate 30 (Ev.call "A") ++ [Ev.errMsg "A" timeoutMsg] } := by
  have hsplit : traceB 31 = traceB 30 ++ roundsB 30 1 := by
    have := roundsB_add 30 0 1
    simp [traceB] at this ⊢
    rw [this]
  rw [hsplit, runTrace, runFrom_append, ← runTrace, runB 30 (by omega)]
  show step (step (stateAfter 30) (Act.fire 30)) (Act.resolve 30 (PollOutcome.ok VideoStatus.notDone)) = _
  have h30 : (MAX_POLLING_ATTEMPTS ≤ 30) := by simp [MAX_POLLING_ATTEMPTS]
  simp [step, stateAfter, pollBody, h30, stopPolling, clearPollingTimeout, List.find?, List.filter]

theorem intervalSeq_pos (n : Nat) : 0 < intervalSeq n := by
  induction n with
  | zero => norm_num [intervalSeq, INITIAL_POLLING_INTERVAL_MS]
  | succ n ih =>
      rw [intervalSeq, nextPollInterval]
      apply lt_min
      · exact mul_pos ih (by norm_num [BACKOFF_FACTOR])
      · norm_num [MAX_POLLING_INTERVAL_MS]

theorem intervalSeq_le_max (n : Nat) : intervalSeq n ≤ MAX_POLLING_INTERVAL_MS := by
  cases n with
  | zero => norm_num [intervalSeq, INITIAL_POLLING_INTERVAL_MS, MAX_POLLING_INTERVAL_MS]
  | succ n => rw [intervalSeq, nextPollInterval]; exact min_le_right _ _

theorem jsonSerializableParams_eq_filter (ps : List (String × JsValue)) :
    jsonSerializableParams ps = ps.filter (fun p => p.2 != JsValue.undef) := by
  induction ps with
  | nil => rfl
  | cons p rest ih =>
      obtain ⟨pk, pv⟩ := p
      cases pv <;> simp [jsonSerializableParams, List.filter_cons, ih, bne_iff_ne]

theorem jsonSerializableParams_mem (ps : List (String × JsValue)) (k : String) (v : JsValue) :
    (k, v) ∈ jsonSerializableParams ps ↔ ((k, v) ∈ ps ∧ v ≠ JsValue.undef) := by
  rw [jsonSerializableParams_eq_filter]
  simp [List.mem_filter, bne_iff_ne]

theorem takeWhile_seg (p : Char → Bool) (xs : List Char) (c : Char) (ys : List Char)
    (hx : ∀ x ∈ xs, p x = true) (hc : p c = false) :
    (xs ++ c :: ys).takeWhile p = xs := by
  induction xs with
  | nil => simp [List.takeWhile, hc]
  | cons x xt ih =>
      have hpx : p x = true := hx x (by simp)
      simp [List.takeWhile, hpx]
      exact ih (fun a ha => hx a (by simp [ha]))

theorem dropWhile_seg (p : Char → Bool) (xs : List Char) (c : Char) (ys : List Char)
    (hx : ∀ x ∈ xs, p x = true) (hc : p c = false) :
    (xs ++ c :: ys).dropWhile p = c :: ys := by
  induction xs with
  | nil => simp [List.dropWhile, hc]
  | cons x xt ih =>
      have hpx : p x = true := hx x (by simp)
      simp [List.dropWhile, hpx]
      exact ih (fun a ha => hx a (by simp [ha]))

theorem isPrefixOf_append (xs ys : List Char) : xs.isPrefixOf (xs ++ ys) = true := by
  rw [List.isPrefixOf_iff_prefix]
  exact List.prefix_append xs ys

theorem isEmpty_false_of_ne_nil {xs : List Char} (h : xs ≠ []) : xs.isEmpty = false := by
  cases xs with
  | nil => exact absurd rfl h
  | cons a b => rfl

theorem parseModelTail_exact (p l m suf : List Char)
    (hp : p ≠ []) (hl : l ≠ []) (hm : m ≠ [])
    (hpc : ∀ c ∈ p, c ≠ '/') (hlc : ∀ c ∈ l, c ≠ '/') (hmc : ∀ c ∈ m, c ≠ backquoteChar) :
    parseModelTail (p ++ mnfLoc ++ l ++ mnfPub ++ m ++ mnfTail ++ suf) = some m := by
  have hslash : (('/' : Char) != '/') = false := by decide
  have hbq : (backquoteChar != backquoteChar) = false := by decide
  have hpc' : ∀ c ∈ p, (c != '/') = true := fun c hc => by
    simp [bne_iff_ne]; exact hpc c hc
  have hlc' : ∀ c ∈ l, (c != '/') = true := fun c hc => by
    simp [bne_iff_ne]; exact hlc c hc
  have hmc' : ∀ c ∈ m, (c != backquoteChar) = true := fun c hc => by
    simp [bne_iff_ne]; exact hmc c hc
  have hloc : mnfLoc = '/' :: "locations/".toList := by decide
  have hpub : mnfPub = '/' :: "publishers/google/models/".toList := by decide
  have htail : mnfTail = backquoteChar :: " not found.".toList := by decide
  -- stage 3: the captured group and its closing literal, followed by suf
  have htake3 : (m ++ backquoteChar :: (" not found.".toList ++ suf)).takeWhile
      (fun c => c != backquoteChar) = m := takeWhile_seg _ m backquoteChar _ hmc' hbq
  have hdrop3 : (m ++ backquoteChar :: (" not found.".toList ++ suf)).dropWhile
      (fun c => c != backquoteChar) = backquoteChar :: (" not found.".toList ++ suf) :=
    dropWhile_seg _ m backquoteChar _ hmc' hbq
  have hpre3 : mnfTail.isPrefixOf (backquoteChar :: (" not found.".toList ++ suf)) = true := by
    have h : backquoteChar :: (" not found.".toList ++ suf) = mnfTail ++ suf := by
      rw [htail]; simp [List.cons_append]
    rw [h]; exact isPrefixOf_append _ _
  -- stage 2: the locations segment and the publishers literal
  have htake2 : (l ++ '/' :: ("publishers/google/models/".toList
      ++ (m ++ backquoteChar :: (" not found.".toList ++ suf)))).takeWhile
      (fun c => c != '/') = l := takeWhile_seg _ l '/' _ hlc' hslash
  have hdrop2 : (l ++ '/' :: ("publishers/google/models/".toList
      ++ (m ++ backquoteChar :: (" not found.".toList ++ suf)))).dropWhile
      (fun c => c != '/') = '/' :: ("publishers/google/models/".toList
      ++ (m ++ backquoteChar :: (" not found.".toList ++ suf))) :=
    dropWhile_seg _ l '/' _ hlc' hslash
  have hcons2 : '/' :: ("publishers/google/models/".toList
      ++ (m ++ backquoteChar :: (" not found.".toList ++ suf)))
      = mnfPub ++ (m ++ backquoteChar :: (" not found.".toList ++ suf)) := by
    rw [hpub]; simp [List.cons_append]
  have hpre2 : mnfPub.isPrefixOf ('/' :: ("publishers/google/models/".toList
      ++ (m ++ backquoteChar :: (" not found.".toList ++ suf)))) = true := by
    rw [hcons2]; exact isPrefixOf_append _ _
  have hdropn2 : ('/' :: ("publishers/google/models/".toList
      ++ (m ++ backquoteChar :: (" not found.".toList ++ suf)))).drop
      mnfPub.length = m ++ backquoteChar :: (" not found.".toList ++ suf) := by
    rw [hcons2]; exact List.drop_left _ _
  -- stage 1: the projects segment and the locations literal
  have htake1 : (p ++ '/' :: ("locations/".toList ++ (l ++ '/' ::
      ("publishers/google/models/".toList
        ++ (m ++ backquoteChar :: (" not found.".toList ++ suf)))))).takeWhile
      (fun c => c != '/') = p := takeWhile_seg _ p '/' _ hpc' hslash
  have hdrop1 : (p ++ '/' :: ("locations/".toList ++ (l ++ '/' ::
      ("publishers/google/models/".toList
        ++ (m ++ backquoteChar :: (" not found.".toList ++ suf)))))).dropWhile
      (fun c => c != '/') = '/' :: ("locations/".toList ++ (l ++ '/' ::
      ("publishers/google/models/".toList
        ++ (m ++ backquoteChar :: (" not found.".toList ++ suf))))) :=
    dropWhile_seg _ p '/' _ hpc' hslash
  have hcons1 : '/' :: ("locations/".toList ++ (l ++ '/' ::
      ("publishers/google/models/".toList
        ++ (m ++ backquoteChar :: (" not found.".toList ++ suf)))))
      = mnfLoc ++ (l ++ '/' :: ("publishers/google/models/".toList
        ++ (m ++ backquoteChar :: (" not found.".toList ++ suf)))) := by
    rw [hloc]; simp [List.cons_append]
  have hpre1 : mnfLoc.isPrefixOf ('/' :: ("locations/".toList ++ (l ++ '/' ::
      ("publishers/google/models/".toList
        ++ (m ++ backquoteChar :: (" not found.".toList ++ suf)))))) = true := by
    rw [hcons1]; exact isPrefixOf_append _ _
  have hdropn1 : ('/' :: ("locations/".toList ++ (l ++ '/' ::
      ("publishers/google/models/".toList
        ++ (m ++ backquoteChar :: (" not found.".toList ++ suf)))))).drop mnfLoc.length
      = l ++ '/' :: ("publishers/google/models/".toList
        ++ (m ++ backquoteChar :: (" not found.".toList ++ suf))) := by
    rw [hcons1]; exact List.drop_left _ _
  have hs1 : p ++ mnfLoc ++ l ++ mnfPub ++ m ++ mnfTail ++ suf
      = p ++ '/' :: ("locations/".toList ++ (l ++ '/' ::
          ("publishers/google/models/".toList
            ++ (m ++ backquoteChar :: (" not found.".toList ++ suf))))) := by
    rw [hloc, hpub, htail]; simp [List.append_assoc, List.cons_append]
  rw [hs1]
  simp only [parseModelTail]
  rw [htake1, hdrop1, isEmpty_false_of_ne_nil hp]
  simp only [Bool.false_eq_true, if_false]
  rw [hpre1]
  simp only [if_true]
  rw [hdropn1]
  rw [htake2, hdrop2, isEmpty_false_of_ne_nil hl]
  simp only [Bool.false_eq_true, if_false]
  rw [hpre2]
  simp only [if_true]
  rw [hdropn2]
  rw [htake3, hdrop3, isEmpty_false_of_ne_nil hm]
  simp only [Bool.false_eq_true, if_false]
  rw [hpre3]
  simp only [if_true]

theorem findModelMatch_of_head (s : List Char) (m : List Char)
    (h1 : mnfHead.isPrefixOf s = true) (h2 : parseModelTail (s.drop mnfHead.length) = some m) :
    findModelMatch s = some m := by
  cases s with
  | nil =>
      have : mnfHead.isPrefixOf ([] : List Char) = false := by decide
      rw [this] at h1
      exact absurd h1 (by simp)
  | cons c rest =>
      rw [findModelMatch, h1]
      simp only [if_true]
      rw [h2]

theorem findModelMatch_eq_none (s : List Char) (h : hasSubstr mnfHead s = false) :
    findModelMatch s = none := by
  induction s with
  | nil => rfl
  | cons c rest ih =>
      rw [hasSubstr, Bool.or_eq_false_iff] at h
      rw [findModelMatch, h.1]
      simp only [Bool.false_eq_true, if_false]
      exact ih h.2

theorem mnfHead_no_period : ∀ d : Nat, d < mnfHead.length → 0 < d →
    mnfHead.take d ++ mnfHead.take (mnfHead.length - d) ≠ mnfHead := by decide

theorem head_prefix_boundary (t X : List Char)
    (h : mnfHead.isPrefixOf (t ++ (mnfHead ++ X)) = true) :
    t = [] ∨ mnfHead.isPrefixOf t = true := by
  by_cases ht : t = []
  · exact Or.inl ht
  · right
    have hpre : mnfHead <+: t ++ (mnfHead ++ X) := (List.isPrefixOf_iff_prefix).mp h
    have htake : mnfHead = (t ++ (mnfHead ++ X)).take mnfHead.length :=
      (List.prefix_iff_eq_take).mp hpre
    by_cases hle : mnfHead.length ≤ t.length
    · have heq : (t ++ (mnfHead ++ X)).take mnfHead.length = t.take mnfHead.length :=
        List.take_append_of_le_length hle
      rw [heq] at htake
      exact (List.isPrefixOf_iff_prefix).mpr (htake ▸ List.take_prefix _ t)
    · exfalso
      push_neg at hle
      have h1 : (t ++ (mnfHead ++ X)).take mnfHead.length
          = t ++ (mnfHead ++ X).take (mnfHead.length - t.length) := by
        rw [List.take_append_eq_append_take, List.take_of_length_le (le_of_lt hle)]
      have h2 : (mnfHead ++ X).take (mnfHead.length - t.length)
          = mnfHead.take (mnfHead.length - t.length) :=
        List.take_append_of_le_length (Nat.sub_le _ _)
      rw [h1, h2] at htake
      have ht' : mnfHead.take t.length = t := by
        conv_lhs => rw [htake]
        rw [List.take_append_eq_append_take, List.take_length]
        simp
      have hper : mnfHead.take t.length ++ mnfHead.take (mnfHead.length - t.length) = mnfHead := by
        rw [ht']
        exact htake.symm
      exact mnfHead_no_period t.length hle (List.length_pos.mpr ht) hper

theorem findModelMatch_skip (pre : List Char) (rest : List Char)
    (h : hasSubstr mnfHead pre = false) :
    findModelMatch (pre ++ (mnfHead ++ rest)) = findModelMatch (mnfHead ++ rest) := by
  induction pre with
  | nil => simp
  | cons c pt ih =>
      rw [hasSubstr, Bool.or_eq_false_iff] at h
      have hnp : mnfHead.isPrefixOf (c :: (pt ++ (mnfHead ++ rest))) = false := by
        cases hcon : mnfHead.isPrefixOf (c :: (pt ++ (mnfHead ++ rest))) with
        | false => rfl
        | true =>
            have hcon' : mnfHead.isPrefixOf ((c :: pt) ++ (mnfHead ++ rest)) = true := hcon
            rcases head_prefix_boundary (c :: pt) rest hcon' with hnil | hpref
            · exact absurd hnil (by simp)
            · rw [hpref] at h
              exact absurd h.1 (by simp)
      show findModelMatch (c :: (pt ++ (mnfHead ++ rest))) = findModelMatch (mnfHead ++ rest)
      rw [findModelMatch, hnp]
      simp only [Bool.false_eq_true, if_false]
      exact ih h.2

theorem findModelMatch_embedded (pre p l m suf : List Char)
    (hpre : hasSubstr mnfHead pre = false)
    (hp : p ≠ []) (hl : l ≠ []) (hm : m ≠ [])
    (hpc : ∀ c ∈ p, c ≠ '/') (hlc : ∀ c ∈ l, c ≠ '/') (hmc : ∀ c ∈ m, c ≠ backquoteChar) :
    findModelMatch (pre ++ mnfHead ++ p ++ mnfLoc ++ l ++ mnfPub ++ m ++ mnfTail ++ suf)
      = some m := by
  have hassoc : pre ++ mnfHead ++ p ++ mnfLoc ++ l ++ mnfPub ++ m ++ mnfTail ++ suf
      = pre ++ (mnfHead ++ (p ++ mnfLoc ++ l ++ mnfPub ++ m ++ mnfTail ++ suf)) := by
    simp [List.append_assoc]
  rw [hassoc, findModelMatch_skip pre _ hpre]
  apply findModelMatch_of_head
  · exact isPrefixOf_append _ _
  · rw [List.drop_left]
    exact parseModelTail_exact p l m suf hp hl hm hpc hlc hmc

theorem toList_mk (cs : List Char) : (String.mk cs).toList = cs := rfl

/-! ### Claim theorems -/

set_option maxRecDepth 8000 in
/-- C1: the claimed cancellation guarantee fails on the code.  Two
concrete schedules: (a) start, the poll fires and its status call is in
flight, stopPolling runs, then the call throws: the catch branch (which
has no cancellation guard) still surfaces an error message for the
cancelled handle; (b) start handle A, its poll fires and the status call
is in flight, a new operation B is started (which re-arms the shared
pollingTimeoutRef), then A's call resolves successfully: the guard at
line 184 sees the non-null ref of B's timer, so A's stale result is
stored, A's history record is saved, and stopPolling kills B's pending
timer. -/
theorem C1_cancellation_leak :
    (runTrace [Act.start "A", Act.fire 0, Act.stop,
        Act.resolve 0 (PollOutcome.threw "network down")]).log
      = [Ev.call "A", Ev.errMsg "A" (statusErrorMsg "network down")]
    ∧ (runTrace [Act.start "A", Act.fire 0, Act.start "B",
        Act.resolve 0 (PollOutcome.ok (VideoStatus.doneVideos ["v1"]))]).log
      = [Ev.call "A", Ev.storeVideos "A" ["v1"], Ev.saveHistory "A"]
    ∧ (runTrace [Act.start "A", Act.fire 0, Act.start "B",
        Act.resolve 0 (PollOutcome.ok (VideoStatus.doneVideos ["v1"]))]).timers = [] := by
  exact ⟨by decide, by decide, by decide⟩

/-- C2: if every status call returns not-done, the loop makes exactly 30
status calls (never more, whatever further timer and resolution events
the scheduler delivers), surfaces the distinct timeout message, which
contains the substring 30, and never invokes the history recorder. -/
theorem C2_timeout_after_thirty_attempts (n : Nat) :
    (runTrace (traceB (31 + n))).log
        = List.replicate 30 (Ev.call "A") ++ [Ev.errMsg "A" timeoutMsg]
      ∧ countCalls (runTrace (traceB (31 + n))).log = 30
      ∧ countSaves (runTrace (traceB (31 + n))).log = 0
      ∧ hasSubstr "30".toList timeoutMsg.toList = true := by
  have hsplit : traceB (31 + n) = traceB 31 ++ roundsB 31 n := by
    have := roundsB_add 31 0 n
    simp [traceB] at this ⊢
    rw [this]
  have hq : Quiet (runTrace (traceB 31)) := by rw [run_timeout31]; exact ⟨rfl, rfl⟩
  have hns : ∀ a ∈ roundsB 31 n, isStartAct a = false := fun a ha => (roundsB_no_start n 31 a ha).1
  have hnt : ∀ a ∈ roundsB 31 n, isThrowResolve a = false := fun a ha => (roundsB_no_start n 31 a ha).2
  have hrun := quiet_run (roundsB 31 n) (runTrace (traceB 31)) hq hns
  have hlog : (runTrace (traceB (31 + n))).log = (runTrace (traceB 31)).log := by
    rw [hsplit, runTrace, runFrom_append, ← runTrace]
    exact hrun.2.2.2 hnt
  rw [hlog, run_timeout31]
  refine ⟨rfl, ?_, ?_, by decide⟩
  · simp [countCalls, List.countP_append, List.countP_cons, isCallEv]
  · simp [countSaves, List.countP_append, List.countP_cons, isSaveEv]

/-- C3 counterexample: the delay actually used is Math.round of the
jittered value, so it can exceed the claimed bound i * (1 + J/2).  At
the reachable interval i = intervalSeq 4 = 12441.6 and the draw
r = 0.9999 (inside [0, 1]), the computed delay is 13686, strictly above
i * 1.1 = 13685.76, refuting the claim that every delay lies within
plus or minus ten percent of the interval. -/
theorem C3_jitter_bound_counterexample :
    intervalSeq 4 = 62208/5
    ∧ nextPollDelay (intervalSeq 4) (9999/10000) = 13686
    ∧ intervalSeq 4 * (1 + JITTER_FACTOR/2) < ((13686 : ℤ) : ℚ)
    ∧ (0:ℚ) ≤ 9999/10000 ∧ (9999/10000 : ℚ) ≤ 1 := by
  have h4 : intervalSeq 4 = 62208/5 := by
    norm_num [intervalSeq, nextPollInterval, INITIAL_POLLING_INTERVAL_MS,
      MAX_POLLING_INTERVAL_MS, BACKOFF_FACTOR, min_def]
  refine ⟨h4, ?_, ?_, by norm_num, by norm_num⟩
  · rw [h4, nextPollDelay, round_eq, JITTER_FACTOR]
    norm_num
  · rw [h4, JITTER_FACTOR]
    norm_num

/-- C3 amended: one backoff step computes the delay as
round(i + i * JITTER_FACTOR * (r - 1/2)) - within one half of the
nominal jittered value, hence within i * (1 plus/minus JITTER_FACTOR/2)
up to that rounding - and the interval update is
min(i * BACKOFF_FACTOR, MAX_POLLING_INTERVAL_MS); the interval sequence
from INITIAL_POLLING_INTERVAL_MS is non-decreasing and capped at
MAX_POLLING_INTERVAL_MS = 60000. -/
theorem C3_backoff_policy :
    (∀ i r : ℚ, 0 ≤ i → 0 ≤ r → r ≤ 1 →
        |(nextPollDelay i r : ℚ) - (i + i * JITTER_FACTOR * (r - 1/2))| ≤ 1/2
        ∧ i * (1 - JITTER_FACTOR/2) - 1/2 ≤ (nextPollDelay i r : ℚ)
        ∧ (nextPollDelay i r : ℚ) ≤ i * (1 + JITTER_FACTOR/2) + 1/2)
    ∧ (∀ n, intervalSeq n ≤ intervalSeq (n + 1))
    ∧ (∀ n, intervalSeq n ≤ MAX_POLLING_INTERVAL_MS) := by
  refine ⟨?_, ?_, intervalSeq_le_max⟩
  · intro i r hi hr0 hr1
    have habs : |i + i * JITTER_FACTOR * (r - 1/2) - (nextPollDelay i r : ℚ)| ≤ 1/2 := by
      rw [nextPollDelay]
      exact abs_sub_round _
    have hlo : i * (1 - JITTER_FACTOR/2) ≤ i + i * JITTER_FACTOR * (r - 1/2) := by
      rw [JITTER_FACTOR] at *
      nlinarith
    have hhi : i + i * JITTER_FACTOR * (r - 1/2) ≤ i * (1 + JITTER_FACTOR/2) := by
      rw [JITTER_FACTOR] at *
      nlinarith
    rw [abs_le] at habs
    constructor
    · rw [abs_le]
      constructor <;> linarith [habs.1, habs.2]
    · constructor <;> linarith [habs.1, habs.2]
  · intro n
    rw [show intervalSeq (n+1) = nextPollInterval (intervalSeq n) from rfl, nextPollInterval]
    apply le_min
    · have := intervalSeq_pos n
      rw [BACKOFF_FACTOR]
      nlinarith
    · exact intervalSeq_le_max n

/-- C3 witness: the backoff theorem instantiated at i = 6000, r = 1/2. -/
theorem C3_backoff_policy_witness :
    ((0:ℚ) ≤ 6000 ∧ (0:ℚ) ≤ 1/2 ∧ (1/2 : ℚ) ≤ 1)
    ∧ |(nextPollDelay 6000 (1/2) : ℚ) - (6000 + 6000 * JITTER_FACTOR * (1/2 - 1/2))| ≤ 1/2
    ∧ 6000 * (1 - JITTER_FACTOR/2) - 1/2 ≤ (nextPollDelay 6000 (1/2) : ℚ)
    ∧ (nextPollDelay 6000 (1/2) : ℚ) ≤ 6000 * (1 + JITTER_FACTOR/2) + 1/2 := by
  have h := C3_backoff_policy.1 6000 (1/2) (by norm_num) (by norm_num) (by norm_num)
  exact ⟨⟨by norm_num, by norm_num, by norm_num⟩, h.1, h.2.1, h.2.2⟩

/-- C4: for a single started operation, the history recorder
(saveVideoToHistory) is invoked exactly once when the poll loop
terminates done-with-videos, and zero times on every other terminal
outcome - backend-reported error, done with no videos, transport error
(thrown status call), cancellation while the final call is in flight,
and timeout - and the counts stay the same under any further non-start
scheduler events. -/
theorem C4_history_recorder_exactly_once (pre : Nat) (v : String) (vt : List String)
    (m : String) (rest : List Act)
    (h : pre < 30) (hns : ∀ a ∈ rest, isStartAct a = false) :
    countSaves (runFrom (runTrace (terminalTrace pre
        (PollOutcome.ok (VideoStatus.doneVideos (v :: vt))))) rest).log = 1
      ∧ countSaves (runFrom (runTrace (terminalTrace pre
          (PollOutcome.ok (VideoStatus.doneError m)))) rest).log = 0
      ∧ countSaves (runFrom (runTrace (terminalTrace pre
          (PollOutcome.ok (VideoStatus.doneVideos [])))) rest).log = 0
      ∧ countSaves (runFrom (runTrace (terminalTrace pre (PollOutcome.threw m))) rest).log = 0
      ∧ countSaves (runFrom (runTrace (cancelTrace pre
          (PollOutcome.ok (VideoStatus.doneVideos (v :: vt))))) rest).log = 0
      ∧ countSaves (runFrom (runTrace (traceB 31)) rest).log = 0 := by
  refine ⟨?_, ?_, ?_, ?_, ?_, ?_⟩
  · have hrunt := run_terminal_videos pre h v vt
    have hq : Quiet (runTrace (terminalTrace pre (PollOutcome.ok (VideoStatus.doneVideos (v :: vt))))) := by
      rw [hrunt]; exact ⟨rfl, rfl⟩
    rw [(quiet_run rest _ hq hns).2.2.1, hrunt]
    simp [countSaves, List.countP_append, List.countP_cons, isSaveEv]
  · have hrunt := run_terminal_doneError pre h m
    have hq : Quiet (runTrace (terminalTrace pre (PollOutcome.ok (VideoStatus.doneError m)))) := by
      rw [hrunt]; exact ⟨rfl, rfl⟩
    rw [(quiet_run rest _ hq hns).2.2.1, hrunt]
    simp [countSaves, List.countP_append, List.countP_cons, isSaveEv]
  · have hrunt := run_terminal_doneEmpty pre h
    have hq : Quiet (runTrace (terminalTrace pre (PollOutcome.ok (VideoStatus.doneVideos [])))) := by
      rw [hrunt]; exact ⟨rfl, rfl⟩
    rw [(quiet_run rest _ hq hns).2.2.1, hrunt]
    simp [countSaves, List.countP_append, List.countP_cons, isSaveEv]
  · have hrunt := run_terminal_threw pre h m
    have hq : Quiet (runTrace (terminalTrace pre (PollOutcome.threw m))) := by
      rw [hrunt]; exact ⟨rfl, rfl⟩
    rw [(quiet_run rest _ hq hns).2.2.1, hrunt]
    simp [countSaves, List.countP_append, List.countP_cons, isSaveEv]
  · have hrunt := run_cancel pre h (VideoStatus.doneVideos (v :: vt))
    have hq : Quiet (runTrace (cancelTrace pre (PollOutcome.ok (VideoStatus.doneVideos (v :: vt))))) := by
      rw [hrunt]; exact ⟨rfl, rfl⟩
    rw [(quiet_run rest _ hq hns).2.2.1, hrunt]
    simp [countSaves, List.countP_append, List.countP_cons, isSaveEv]
  · have hq : Quiet (runTrace (traceB 31)) := by rw [run_timeout31]; exact ⟨rfl, rfl⟩
    rw [(quiet_run rest _ hq hns).2.2.1, run_timeout31]
    simp [countSaves, List.countP_append, List.countP_cons, isSaveEv]

set_option maxRecDepth 8000 in
/-- C4 witness: the exactly-once theorem at pre = 0, one video, an empty
continuation. -/
theorem C4_history_recorder_exactly_once_witness :
    ((0:Nat) < 30 ∧ (∀ a ∈ ([] : List Act), isStartAct a = false))
    ∧ countSaves (runFrom (runTrace (terminalTrace 0
        (PollOutcome.ok (VideoStatus.doneVideos ["v"])))) []).log = 1
    ∧ countSaves (runFrom (runTrace (cancelTrace 0
        (PollOutcome.ok (VideoStatus.doneVideos ["v"])))) []).log = 0 := by
  have h := C4_history_recorder_exactly_once 0 "v" [] "backend error" [] (by decide) (by decide)
  exact ⟨⟨by decide, by decide⟩, h.1, h.2.2.2.2.1⟩

/-- C7: if the status call itself throws on attempt pre + 1 (any attempt
before the ceiling), the loop ends immediately with the
Error-checking-video-status message: exactly pre + 1 status calls are
logged, no further call is ever made under any non-start continuation,
and the history recorder is never invoked. -/
theorem C7_transport_error_is_terminal (pre : Nat) (msg : String) (rest : List Act)
    (h : pre < 30) (hns : ∀ a ∈ rest, isStartAct a = false) :
    (runTrace (terminalTrace pre (PollOutcome.threw msg))).log
        = List.replicate (pre + 1) (Ev.call "A") ++ [Ev.errMsg "A" (statusErrorMsg msg)]
      ∧ countCalls (runFrom (runTrace (terminalTrace pre (PollOutcome.threw msg))) rest).log
          = pre + 1
      ∧ countSaves (runFrom (runTrace (terminalTrace pre (PollOutcome.threw msg))) rest).log
          = 0 := by
  have hrunt := run_terminal_threw pre h msg
  have hq : Quiet (runTrace (terminalTrace pre (PollOutcome.threw msg))) := by
    rw [hrunt]; exact ⟨rfl, rfl⟩
  have hrun := quiet_run rest _ hq hns
  refine ⟨?_, ?_, ?_⟩
  · rw [hrunt, List.replicate_succ']
  · rw [hrun.2.1, hrunt]
    simp [countCalls, List.countP_append, List.countP_cons, isCallEv]
    have := countCalls_replicate pre "A"
    simp [countCalls] at this
    omega
  · rw [hrun.2.2.1, hrunt]
    simp [countSaves, List.countP_append, List.countP_cons, isSaveEv]

set_option maxRecDepth 8000 in
/-- C7 witness: the transport-error theorem at pre = 1 (the second call
throws), with two further scheduler events after the failure: only two
status calls ever happen - scenario D. -/
theorem C7_transport_error_is_terminal_witness :
    ((1:Nat) < 30
      ∧ (∀ a ∈ [Act.fire 5, Act.resolve 9 (PollOutcome.ok VideoStatus.notDone)],
          isStartAct a = false))
    ∧ (runTrace (terminalTrace 1 (PollOutcome.threw "boom"))).log
        = List.replicate 2 (Ev.call "A") ++ [Ev.errMsg "A" (statusErrorMsg "boom")]
    ∧ countCalls (runFrom (runTrace (terminalTrace 1 (PollOutcome.threw "boom")))
        [Act.fire 5, Act.resolve 9 (PollOutcome.ok VideoStatus.notDone)]).log = 2 := by
  have h := C7_transport_error_is_terminal 1 "boom"
      [Act.fire 5, Act.resolve 9 (PollOutcome.ok VideoStatus.notDone)] (by decide) (by decide)
  exact ⟨⟨by decide, by decide⟩, h.1, h.2.1⟩

/-- C5 counterexample: when the backend reports no metadata at all, the
persisted performance block still contains executionTimeMs = 0,
fabricated by the executionTimeMs-or-zero expression at line 306 - so
the field is present although the backend reported nothing. -/
theorem C5_fabricated_zero_counterexample :
    (mkVideoPerformance none "2025-01-01T00:00:00Z" "2025-01-01T00:01:00Z").executionTimeMs
        = some 0
    ∧ (none : Option VideoMetadataI).bind (fun m => m.executionTimeMs) = none := by
  exact ⟨rfl, rfl⟩

/-- C5 amended: tokensUsed, inputTokens and outputTokens are present in
the persisted performance block exactly when the backend reported them
(and with the reported value), but executionTimeMs is always present and
defaults to a fabricated 0 when the backend reported nothing. -/
theorem C5_performance_field_presence :
    (∀ (meta : Option VideoMetadataI) (s n : String),
        (mkVideoPerformance meta s n).tokensUsed = meta.bind (fun m => m.tokensUsed)
        ∧ (mkVideoPerformance meta s n).inputTokens = meta.bind (fun m => m.inputTokens)
        ∧ (mkVideoPerformance meta s n).outputTokens = meta.bind (fun m => m.outputTokens))
    ∧ (∀ (meta : Option VideoMetadataI) (s n : String),
        (mkVideoPerformance meta s n).executionTimeMs
          = some ((meta.bind (fun m => m.executionTimeMs)).getD 0))
    ∧ (∀ s n : String, (mkVideoPerformance none s n).executionTimeMs = some 0) := by
  exact ⟨fun _ _ _ => ⟨rfl, rfl, rfl⟩, fun _ _ _ => rfl, fun _ _ => rfl⟩

/-- C6 counterexample: the parameters map is built with no filtering, so
an empty-string entry (secondary_style here) survives construction and
JSON serialization, and a null-valued entry survives serialization as
well - refuting the claim that empty-string and null entries are
excluded. -/
theorem C6_filtering_counterexample :
    ("secondary_style", JsValue.str "") ∈
        jsonSerializableParams (mkVideoParameters "a cat"
          ⟨"16:9", "1080p", "5", "1", false, "cinematic", ""⟩)
    ∧ ("n", JsValue.null) ∈ jsonSerializableParams [("n", JsValue.null)] := by
  exact ⟨by decide, by decide⟩

/-- C6 amended: the only entries missing from the persisted parameters
map are those whose value is undefined (dropped by JSON serialization);
empty-string, null, zero and false values are all retained, and the
video and image parameter objects are persisted entirely (none of their
fields can be undefined). -/
theorem C6_only_undefined_excluded :
    (∀ (ps : List (String × JsValue)) (k : String) (v : JsValue),
        (k, v) ∈ jsonSerializableParams ps ↔ ((k, v) ∈ ps ∧ v ≠ JsValue.undef))
    ∧ (∀ prompt fd, jsonSerializableParams (mkVideoParameters prompt fd) = mkVideoParameters prompt fd)
    ∧ (∀ prompt ratio n, jsonSerializableParams (mkImageParameters prompt ratio n)
        = mkImageParameters prompt ratio n) := by
  exact ⟨jsonSerializableParams_mem, fun _ _ => rfl, fun _ _ _ => rfl⟩

/-- C8 counterexample: the video submission path strips only the FIRST
occurrence of the redundant Error-colon-space prefix (String.replace,
line 710), so a doubled prefix survives in the surfaced message -
refuting the claim that every occurrence is stripped. -/
theorem C8_prefix_strip_counterexample :
    videoErrorRewrite "Error: Error: quota exceeded" [] = "Error: quota exceeded"
    ∧ hasSubstr "Error: ".toList ("Error: quota exceeded".toList) = true := by
  exact ⟨by decide, by decide⟩

/-- C8 amended: a backend error message that contains the
publisher-model-not-found pattern - with any preceding text in which the
pattern head does not occur, and any following text - is rewritten by
manageModelNotFoundError into the access-request message naming the
label of the model option whose value equals the captured model id (or
the id itself when no option matches); any string the pattern does not
match (findModelMatch none, the unanchored leftmost regex search) is
returned unchanged, including strings containing the pattern head whose
continuation does not parse; and the video path strips only the first
occurrence of the redundant Error-colon-space prefix before this
rewrite. -/
theorem C8_model_not_found_rewrite :
    (∀ (pre p l m suf : List Char) (opts : List ModelOption),
        hasSubstr mnfHead pre = false →
        p ≠ [] → l ≠ [] → m ≠ [] →
        (∀ c ∈ p, c ≠ '/') → (∀ c ∈ l, c ≠ '/') → (∀ c ∈ m, c ≠ backquoteChar) →
        manageModelNotFoundError
            (String.mk (pre ++ mnfHead ++ p ++ mnfLoc ++ l ++ mnfPub ++ m ++ mnfTail ++ suf)) opts
          = accessRequestMsg
              (match opts.find? (fun mo => mo.value == String.mk m) with
               | some mo => mo.label
               | none => String.mk m))
    ∧ (∀ (s : String) (opts : List ModelOption),
        findModelMatch s.toList = none → manageModelNotFoundError s opts = s)
    ∧ (∀ (s : String) (opts : List ModelOption),
        hasSubstr mnfHead s.toList = false → findModelMatch s.toList = none)
    ∧ (∀ opts : List ModelOption,
        manageModelNotFoundError (String.mk (mnfHead ++ "x".toList ++ mnfTail)) opts
          = String.mk (mnfHead ++ "x".toList ++ mnfTail))
    ∧ (∀ (e : String) (opts : List ModelOption),
        videoErrorRewrite e opts
          = manageModelNotFoundError
              (String.mk (jsReplaceFirst "Error: ".toList [] e.toList)) opts) := by
  refine ⟨?_, ?_, ?_, ?_, fun _ _ => rfl⟩
  · intro pre p l m suf opts hpre hp hl hm hpc hlc hmc
    rw [manageModelNotFoundError, toList_mk,
      findModelMatch_embedded pre p l m suf hpre hp hl hm hpc hlc hmc]
  · intro s opts h
    rw [manageModelNotFoundError, h]
  · intro s opts h
    exact findModelMatch_eq_none s.toList h
  · intro opts
    rw [manageModelNotFoundError, toList_mk,
      show findModelMatch (mnfHead ++ "x".toList ++ mnfTail) = none from by decide]

set_option maxRecDepth 8000 in
/-- C8 witness: the rewrite theorem at a concrete message embedding the
pattern between a stripped error prefix and trailing text, with one
model option, producing the access-request message with the human
label. -/
theorem C8_model_not_found_rewrite_witness :
    (hasSubstr mnfHead ("Error: ".toList) = false
      ∧ "proj1".toList ≠ ([] : List Char)
      ∧ (∀ c ∈ "proj1".toList, c ≠ '/')
      ∧ (∀ c ∈ "us-central1".toList, c ≠ '/')
      ∧ (∀ c ∈ "veo-3".toList, c ≠ backquoteChar))
    ∧ manageModelNotFoundError
        (String.mk ("Error: ".toList ++ mnfHead ++ "proj1".toList ++ mnfLoc
          ++ "us-central1".toList ++ mnfPub ++ "veo-3".toList ++ mnfTail
          ++ " Please check access.".toList)) [⟨"veo-3", "Veo 3"⟩]
      = accessRequestMsg "Veo 3" := by
  have h := C8_model_not_found_rewrite.1 "Error: ".toList "proj1".toList "us-central1".toList
      "veo-3".toList " Please check access.".toList [⟨"veo-3", "Veo 3"⟩]
      (by decide) (by decide) (by decide) (by decide) (by decide) (by decide) (by decide)
  refine ⟨⟨by decide, by decide, by decide, by decide, by decide⟩, ?_⟩
  rw [h]
  decide

/-- C9: loadGenerationHistory always returns a structured result (a
success with data, or a structured failure with an error - never an
exception); a missing history directory yields success with an empty
list; for a readable directory the result holds at most 30 records,
sorted newest-first by record timestamp, and the sessions it draws from
are the 30 most recently modified ones: every session kept dominates (by
mtime) every session dropped, and kept plus dropped is a permutation of
all statted sessions. -/
theorem C9_load_generation_history :
    (loadGenerationHistory HistoryDir.missing = ⟨true, some [], none⟩)
    ∧ (∀ d : HistoryDir,
        ((loadGenerationHistory d).success = true ∧ (loadGenerationHistory d).data ≠ none)
        ∨ ((loadGenerationHistory d).success = false ∧ (loadGenerationHistory d).error ≠ none))
    ∧ (∀ sessions, (loadGenerationHistory (HistoryDir.present sessions)).success = true)
    ∧ (∀ sessions, (loadedRecords (HistoryDir.present sessions)).length ≤ 30)
    ∧ (∀ sessions, List.Sorted byTimestampDesc (loadedRecords (HistoryDir.present sessions)))
    ∧ (∀ sessions x y, x ∈ recentSessions sessions → y ∈ (sortedStats sessions).drop 30 →
        y.2 ≤ x.2)
    ∧ (∀ sessions,
        (recentSessions sessions ++ (sortedStats sessions).drop 30).Perm (sessionStats sessions)) := by
  refine ⟨rfl, ?_, fun _ => rfl, ?_, ?_, ?_, ?_⟩
  · intro d
    cases d with
    | missing => left; exact ⟨rfl, by simp [loadGenerationHistory]⟩
    | unreadable e => right; exact ⟨rfl, by simp [loadGenerationHistory]⟩
    | present sessions => left; exact ⟨rfl, by simp [loadGenerationHistory]⟩
  · intro sessions
    show (List.insertionSort byTimestampDesc
        ((recentSessions sessions).filterMap (fun p => p.1.metaRecord))).length ≤ 30
    rw [List.length_insertionSort]
    calc ((recentSessions sessions).filterMap (fun p => p.1.metaRecord)).length
        ≤ (recentSessions sessions).length := List.length_filterMap_le _ _
      _ ≤ 30 := by simp [recentSessions]
  · intro sessions
    exact List.sorted_insertionSort byTimestampDesc _
  · intro sessions x y hx hy
    have hs : List.Sorted byMtimeDesc (sortedStats sessions) :=
      List.sorted_insertionSort byMtimeDesc _
    have hsplit := List.take_append_drop 30 (sortedStats sessions)
    rw [← hsplit] at hs
    rw [List.Sorted, List.pairwise_append] at hs
    exact hs.2.2 x hx y hy
  · intro sessions
    have hsplit : recentSessions sessions ++ (sortedStats sessions).drop 30 = sortedStats sessions :=
      List.take_append_drop 30 (sortedStats sessions)
    rw [hsplit]
    exact List.perm_insertionSort byMtimeDesc _

set_option maxRecDepth 8000 in
/-- C9 witness: a directory of 31 sessions with mtimes 0..30; the oldest
session (mtime 0) is the one dropped by the 30-session cut, and it is
dominated by the newest kept session (mtime 30). -/
theorem C9_load_generation_history_witness :
    (((⟨"30", some 30, none⟩ : SessionEntry), (30 : Int)) ∈
        recentSessions ((List.range 31).map
          (fun i => (⟨toString i, some (i : Int), none⟩ : SessionEntry))))
    ∧ (((⟨"0", some 0, none⟩ : SessionEntry), (0 : Int)) ∈
        (sortedStats ((List.range 31).map
          (fun i => (⟨toString i, some (i : Int), none⟩ : SessionEntry)))).drop 30)
    ∧ ((((⟨"0", some 0, none⟩ : SessionEntry), (0 : Int)) : SessionEntry × Int).2
        ≤ (((⟨"30", some 30, none⟩ : SessionEntry), (30 : Int)) : SessionEntry × Int).2) := by
  refine ⟨by decide, by decide, ?_⟩
  exact C9_load_generation_history.2.2.2.2.2.1
    ((List.range 31).map (fun i => (⟨toString i, some (i : Int), none⟩ : SessionEntry)))
    ((⟨"30", some 30, none⟩ : SessionEntry), (30 : Int))
    ((⟨"0", some 0, none⟩ : SessionEntry), (0 : Int))
    (by decide) (by decide)

/-- C10: deleteGenerationSession never throws and is idempotent at its
interface: with no environment failure it returns success (force
removal), the session is absent afterwards, deleting a nonexistent
session leaves the store unchanged and still succeeds, a second delete
of the same id is a no-op with the same result, and an environment
failure of the removal is reported as a structured success-false result
with the error message. -/
theorem C10_delete_generation_session :
    (∀ (fs : List String) (sid : String),
        (deleteGenerationSession fs sid none).2 = ⟨true, none⟩)
    ∧ (∀ (fs : List String) (sid : String), sid ∉ (deleteGenerationSession fs sid none).1)
    ∧ (∀ (fs : List String) (sid : String), sid ∉ fs → (deleteGenerationSession fs sid none).1 = fs)
    ∧ (∀ (fs : List String) (sid : String),
        deleteGenerationSession ((deleteGenerationSession fs sid none).1) sid none
          = deleteGenerationSession fs sid none)
    ∧ (∀ (fs : List String) (sid : String) (e : String),
        (deleteGenerationSession fs sid (some e)).2 = ⟨false, some e⟩) := by
  refine ⟨fun _ _ => rfl, ?_, ?_, ?_, fun _ _ _ => rfl⟩
  · intro fs sid hmem
    simp [deleteGenerationSession, List.mem_filter] at hmem
  · intro fs sid hnot
    simp [deleteGenerationSession]
    intro a ha heq
    subst heq
    exact hnot ha
  · intro fs sid
    simp [deleteGenerationSession, List.filter_filter]

/-- C10 witness: deleting a session id that is not in the store succeeds
and leaves the store unchanged. -/
theorem C10_delete_generation_session_witness :
    ("missing" ∉ ["a", "b"])
    ∧ (deleteGenerationSession ["a", "b"] "missing" none).1 = ["a", "b"] := by
  exact ⟨by decide, C10_delete_generation_session.2.2.1 ["a", "b"] "missing" (by decide)⟩
